import Mathlib

/-!
Verification of the tool-calling agent in `src/src/agent.py`.

The development shallowly embeds the agent's data model and its conversation
loop.  External collaborators (the model-serving endpoint together with the
`output_to_responses_items_stream` aggregator, `json.loads`, and the Unity
Catalog execution client) are modelled as explicit oracle parameters, so the
theorems quantify over every possible behaviour of those collaborators.
Python exceptions are modelled with `Except PyErr`; a generator run is
modelled by a `RunResult` that records the events yielded, the final message
list, how many model turns and tool turns were entered, whether the loop hit
its early `return`, and the exception (if any) that escaped.
-/

/-- Parsed JSON-object payload of a tool call (the result of `json.loads` on
`tool_call["arguments"]`), modelled as a key/value list; every handler in the
source consumes it opaquely via `**kwargs`. -/
abbrev Args : Type := List (String × String)

/-- Python exceptions the agent module can raise: `KeyError` from the
registry dict subscript (agent.py line 140), `json.JSONDecodeError` from
`json.loads` (line 163), `IndexError` from `messages[-1]` on an empty list
(line 176), and transient endpoint errors raised by the OpenAI client
(line 145). -/
inductive PyErr where
  | keyError (k : String)
  | jsonDecodeError (s : String)
  | indexError
  | endpointError (msg : String)
deriving DecidableEq

/-- One conversation message / output item (a Python dict).  `role` and
`type` are read with `.get(..., None)` in the source (lines 177 and 179),
hence `Option`; the remaining fields are read by direct subscript only on
items that carry them, so they are carried totally with `""` for absent. -/
structure Msg where
  role : Option String := none
  type : Option String := none
  id : String := ""
  name : String := ""
  arguments : String := ""
  call_id : String := ""
  output : String := ""
  content : String := ""
deriving DecidableEq

/-- Stream events (`ResponsesAgentStreamEvent`): either a
`response.output_item.done` event carrying a finalized item, or any other
streamed event (for example a text delta), carried opaquely. -/
inductive Event where
  | outputItemDone (item : Msg)
  | other (payload : String)
deriving DecidableEq

/-- The `"function"` object inside an OpenAI tool spec.  The transport-only
`"strict"` key is modelled as an optional field (`none` = key absent); the
rest of the schema is opaque to the agent code and carried as a blob. -/
structure FunctionSpec where
  name : String
  strict : Option Bool := none
  rest : String := ""
deriving DecidableEq

/-- An OpenAI-format tool spec: `{"type": "function", "function": {...}}`. -/
structure ToolSpec where
  type : String := "function"
  function : FunctionSpec
deriving DecidableEq

/-- Result of `uc_function_client.execute_function`: a `(value, error)`
pair (agent.py lines 80-84). -/
structure FunctionResult where
  error : Option String := none
  value : String := ""

/-- Embeds the `ToolInfo` pydantic model (agent.py lines 59-69).  The
handler is modelled after the `str(...)` normalization applied at the call
site, so it returns the display string directly. -/
structure ToolInfo where
  name : String
  spec : ToolSpec
  exec_fn : Args → String

/-- Embeds `create_tool_info` (agent.py lines 72-85): pops the `"strict"`
key from the spec's `"function"` object, derives the UDF name by replacing
`"__"` with `"."`, and uses the supplied handler if given, otherwise the
default Unity Catalog wrapper (which returns the reported error string when
present, else the value).  `ucExecute` stands for the module-global
`uc_function_client`. -/
def create_tool_info (ucExecute : String → Args → FunctionResult) (tool_spec : ToolSpec)
    (exec_fn_param : Option (Args → String)) : ToolInfo :=
  let spec2 : ToolSpec := { tool_spec with function := { tool_spec.function with strict := none } }
  let tool_name := spec2.function.name
  let udf_name := tool_name.replace "__" "."
  let exec_fn : Args → String := fun kwargs =>
    let function_result := ucExecute udf_name kwargs
    match function_result.error with
    | some e => e
    | none => function_result.value
  { name := tool_name, spec := spec2, exec_fn := exec_fn_param.getD exec_fn }

/-- Inserts one tool into an insertion-ordered Python dict keyed by name:
reassigning an existing key keeps its position, a new key goes to the end. -/
def dictInsert (d : List ToolInfo) (t : ToolInfo) : List ToolInfo :=
  if d.any (fun x => x.name == t.name) then
    d.map (fun x => if x.name == t.name then t else x)
  else d ++ [t]

/-- Embeds the dict comprehension `{tool.name: tool for tool in tools}`
(agent.py line 131). -/
def buildToolsDict (tools : List ToolInfo) : List ToolInfo :=
  tools.foldl dictInsert []

/-- Python dict lookup by tool name. -/
def dictLookup (d : List ToolInfo) (n : String) : Option ToolInfo :=
  d.find? (fun x => x.name == n)

/-- The agent state set up by `ToolCallingAgent.__init__` (agent.py lines
124-131): the endpoint name and the name-keyed tool dict. -/
structure ToolCallingAgent where
  llm_endpoint : String
  tools_dict : List ToolInfo

/-- Embeds `ToolCallingAgent.__init__`. -/
def mkToolCallingAgent (llm_endpoint : String) (tools : List ToolInfo) : ToolCallingAgent :=
  { llm_endpoint := llm_endpoint, tools_dict := buildToolsDict tools }

/-- Embeds `ToolCallingAgent.get_tool_specs` (agent.py lines 133-135): a
pure comprehension over the values of `self._tools_dict`. -/
def get_tool_specs (a : ToolCallingAgent) : List ToolSpec :=
  a.tools_dict.map (fun tool_info => tool_info.spec)

/-- Tracks accesses to the external Unity Catalog tool catalog (queried at
module load by `UCFunctionToolkit`, agent.py line 94). -/
structure CatalogWorld where
  catalogQueries : Nat
deriving DecidableEq

/-- Effect-tracking embedding of `get_tool_specs`: the method body reads
only `self._tools_dict`, so it returns the pure result and leaves the
catalog-access counter untouched. -/
def get_tool_specs_tracked (a : ToolCallingAgent) (w : CatalogWorld) :
    List ToolSpec × CatalogWorld :=
  (get_tool_specs a, w)

/-- Embeds `ToolCallingAgent.execute_tool` (agent.py lines 137-140):
`self._tools_dict[tool_name]` raises `KeyError` when the name is absent;
otherwise the handler runs. -/
def execute_tool (a : ToolCallingAgent) (tool_name : String) (args : Args) :
    Except PyErr String :=
  match dictLookup a.tools_dict tool_name with
  | none => Except.error (PyErr.keyError tool_name)
  | some t => Except.ok (t.exec_fn args)

/-- External-collaborator oracles for one loop invocation.  `jsonLoads`
models `json.loads` (`none` = `JSONDecodeError` raised); `model` models a
whole model turn — `call_llm` composed with
`output_to_responses_items_stream` — indexed by the number of previous model
turns, returning the items appended to the conversation and the events
yielded, or the exception the turn raised; `toCC` models
`to_chat_completions_input`; `uuidStr` models the `uuid4()` drawn for the
synthetic budget notice. -/
structure Env where
  jsonLoads : String → Option Args
  model : Nat → List Msg → Except PyErr (List Msg × List Event)
  toCC : List Msg → List Msg
  systemPrompt : String
  uuidStr : String

/-- Embeds `ResponsesAgent.create_function_call_output_item`: the dict
`{"type": "function_call_output", "call_id": ..., "output": ...}`. -/
def create_function_call_output_item (call_id output : String) : Msg :=
  { type := some "function_call_output", call_id := call_id, output := output }

/-- Embeds `ResponsesAgent.create_text_output_item`: an assistant message
item with the given text and id. -/
def create_text_output_item (text id : String) : Msg :=
  { role := some "assistant", type := some "message", id := id, content := text }

/-- The synthetic budget notice item built at agent.py line 188. -/
def mxItem (env : Env) : Msg :=
  create_text_output_item "Max iterations reached. Stopping." env.uuidStr

/-- The synthetic `response.output_item.done` event of agent.py lines
186-189. -/
def mxEvent (env : Env) : Event :=
  Event.outputItemDone (mxItem env)

/-- Embeds `ToolCallingAgent.handle_tool_call` (agent.py lines 155-168):
parse the serialized arguments (raising on failure), execute the tool
(raising on unknown name), append the correlated output item, and return
the new conversation together with the yielded event. -/
def handle_tool_call (env : Env) (a : ToolCallingAgent) (tool_call : Msg)
    (messages : List Msg) : Except PyErr (List Msg × Event) :=
  match env.jsonLoads tool_call.arguments with
  | none => Except.error (PyErr.jsonDecodeError tool_call.arguments)
  | some args =>
    match execute_tool a tool_call.name args with
    | Except.error e => Except.error e
    | Except.ok result =>
      let tool_call_output := create_function_call_output_item tool_call.call_id result
      Except.ok (messages ++ [tool_call_output], Event.outputItemDone tool_call_output)

/-- Outcome of running the `call_and_run_tools` generator to completion (or
to the exception that escaped it): the events yielded, the final message
list, how many model turns and tool turns were entered, whether the early
`return` (DONE) fired, and the escaped exception if any. -/
structure RunResult where
  events : List Event
  messages : List Msg
  modelTurns : Nat
  toolTurns : Nat
  returnedDone : Bool
  error : Option PyErr
deriving DecidableEq

/-- Embeds the body of `ToolCallingAgent.call_and_run_tools` (agent.py
lines 170-189): the `for _ in range(max_iter)` loop inspecting the tail
message, with the trailing synthetic "Max iterations reached. Stopping."
yield when the range is exhausted without the early `return`. -/
def runLoop (env : Env) (a : ToolCallingAgent) :
    Nat → List Msg → List Event → Nat → Nat → RunResult
  | 0, msgs, evs, mc, tc =>
    { events := evs ++ [mxEvent env], messages := msgs, modelTurns := mc, toolTurns := tc,
      returnedDone := false, error := none }
  | Nat.succ n, msgs, evs, mc, tc =>
    match msgs.getLast? with
    | none =>
      { events := evs, messages := msgs, modelTurns := mc, toolTurns := tc,
        returnedDone := false, error := some PyErr.indexError }
    | some last_msg =>
      if last_msg.role = some "assistant" then
        { events := evs, messages := msgs, modelTurns := mc, toolTurns := tc,
          returnedDone := true, error := none }
      else if last_msg.type = some "function_call" then
        match handle_tool_call env a last_msg msgs with
        | Except.error e =>
          { events := evs, messages := msgs, modelTurns := mc, toolTurns := tc + 1,
            returnedDone := false, error := some e }
        | Except.ok (msgs2, ev) => runLoop env a n msgs2 (evs ++ [ev]) mc (tc + 1)
      else
        match env.model mc msgs with
        | Except.error e =>
          { events := evs, messages := msgs, modelTurns := mc + 1, toolTurns := tc,
            returnedDone := false, error := some e }
        | Except.ok (appended, mevs) =>
          runLoop env a n (msgs ++ appended) (evs ++ mevs) (mc + 1) tc

/-- Embeds `ToolCallingAgent.call_and_run_tools` run to completion. -/
def call_and_run_tools (env : Env) (a : ToolCallingAgent) (messages : List Msg)
    (max_iter : Nat) : RunResult :=
  runLoop env a max_iter messages [] 0 0

/-- Embeds `ToolCallingAgent.predict_stream` (agent.py lines 199-205):
convert the request input, prepend the system prompt when it is non-empty,
and run `call_and_run_tools` with its default `max_iter = 10`. -/
def predict_stream (env : Env) (a : ToolCallingAgent) (input : List Msg) : RunResult :=
  let messages := env.toCC input
  let messages :=
    if env.systemPrompt = "" then messages
    else { role := some "system", content := env.systemPrompt : Msg } :: messages
  call_and_run_tools env a messages 10

/-- An agent request: the conversation plus optional caller passthrough
metadata of arbitrary type. -/
structure Request (α : Type) where
  input : List Msg
  custom_inputs : Option α

/-- An agent response: the collected finalized items plus `custom_outputs`. -/
structure Response (α : Type) where
  output : List Msg
  custom_outputs : Option α

/-- The items of the `response.output_item.done` events of a stream, in
order — the list comprehension of agent.py lines 192-196. -/
def eventItems (evs : List Event) : List Msg :=
  evs.filterMap (fun e =>
    match e with
    | Event.outputItemDone item => some item
    | Event.other _ => none)

/-- Embeds `ToolCallingAgent.predict` (agent.py lines 191-197): collect the
completed items of the stream (re-raising any exception the stream raised)
and echo `request.custom_inputs` as `custom_outputs`. -/
def predict {α : Type} (env : Env) (a : ToolCallingAgent) (req : Request α) :
    Except PyErr (Response α) :=
  let r := predict_stream env a req.input
  match r.error with
  | some e => Except.error e
  | none => Except.ok { output := eventItems r.events, custom_outputs := req.custom_inputs }

/-- One chunk of the streamed chat completion; the source keeps a chunk
exactly when its `"choices"` list is non-empty (agent.py line 152). -/
structure Chunk where
  choices : List String
  payload : String
deriving DecidableEq

/-- The model-serving endpoint as seen by `call_llm`, indexed by attempt
number so that retry behaviour is observable: attempt `k` is what the
`chat.completions.create` call would do the `k`-th time it was tried. -/
structure LLMEnv where
  endpoint : Nat → List Msg → List ToolSpec → Except PyErr (List Chunk)

/-- Embeds `ToolCallingAgent.call_llm` (agent.py lines 142-153): one single
request to the endpoint (attempt `0`; the source applies no retry
decorator), keeping the chunks that have a non-empty `"choices"` list.  An
endpoint exception propagates to the caller unchanged. -/
def call_llm (lenv : LLMEnv) (a : ToolCallingAgent) (messages : List Msg) :
    Except PyErr (List Chunk) :=
  match lenv.endpoint 0 messages (get_tool_specs a) with
  | Except.error e => Except.error e
  | Except.ok chunks => Except.ok (chunks.filter (fun c => !c.choices.isEmpty))

/-- A plain user turn, as in the repository's driver example. -/
def userMsg : Msg :=
  { role := some "user", content := "what is 4*3 in python" }

/-- A finalized assistant message. -/
def asstMsg : Msg :=
  { role := some "assistant", type := some "message", content := "4*3 is 12" }

/-- A tool invocation for the registered code-execution tool, with
correlation id `"X"`. -/
def fcX : Msg :=
  { type := some "function_call", name := "python_exec", arguments := "{}", call_id := "X" }

/-- A tool invocation whose name is absent from every registry below. -/
def fcGhost : Msg :=
  { type := some "function_call", name := "ghost", arguments := "{}", call_id := "c1" }

/-- A tool invocation whose serialized arguments are not valid JSON. -/
def fcBad : Msg :=
  { type := some "function_call", name := "python_exec", arguments := "not json",
    call_id := "c2" }

/-- An environment whose argument parser always succeeds with the empty
mapping and whose model endpoint is never reached (it would raise). -/
def envParseOk : Env :=
  { jsonLoads := fun _ => some [], model := fun _ _ => Except.error (PyErr.endpointError "unused"),
    toCC := fun l => l, systemPrompt := "", uuidStr := "u1" }

/-- An environment whose argument parser always fails, modelling
`json.loads` raising `JSONDecodeError` on the payload it is given. -/
def envNoParse : Env :=
  { jsonLoads := fun _ => none, model := fun _ _ => Except.error (PyErr.endpointError "unused"),
    toCC := fun l => l, systemPrompt := "", uuidStr := "u2" }

/-- An environment whose model turn always appends one pending tool
invocation (`fcX`) and yields its completion event. -/
def envModelFc : Env :=
  { jsonLoads := fun _ => some [],
    model := fun _ _ => Except.ok ([fcX], [Event.outputItemDone fcX]),
    toCC := fun l => l, systemPrompt := "", uuidStr := "u4" }

/-- An agent with an empty tool registry. -/
def aEmpty : ToolCallingAgent :=
  mkToolCallingAgent "databricks-claude-sonnet-4" []

/-- A registered code-execution tool whose handler always answers "12". -/
def echoTool : ToolInfo :=
  { name := "python_exec",
    spec := { type := "function", function := { name := "python_exec" } },
    exec_fn := fun _ => "12" }

/-- An agent whose registry holds exactly `echoTool`. -/
def aEcho : ToolCallingAgent :=
  mkToolCallingAgent "databricks-claude-sonnet-4" [echoTool]

/-- Number of occurrences of an event in a yielded event list. -/
def countEvent (x : Event) (l : List Event) : Nat :=
  l.countP (fun e => decide (e = x))

theorem countEvent_nil (x : Event) : countEvent x [] = 0 := rfl

theorem countEvent_append (x : Event) (l1 l2 : List Event) :
    countEvent x (l1 ++ l2) = countEvent x l1 + countEvent x l2 := by
  simp [countEvent, List.countP_append]

theorem countEvent_cons_ne (x y : Event) (l : List Event) (h : y ≠ x) :
    countEvent x (y :: l) = countEvent x l := by
  simp [countEvent, List.countP_cons, h]

theorem countEvent_eq_zero (x : Event) (l : List Event) (h : x ∉ l) :
    countEvent x l = 0 := by
  induction l with
  | nil => rfl
  | cons a as ih =>
    simp only [List.mem_cons, not_or] at h
    have hax : a ≠ x := fun hax => h.1 hax.symm
    simpa [countEvent, List.countP_cons, hax] using ih h.2

theorem getLast?_cons_of_ne_nil (a : Event) (l : List Event) (h : l ≠ []) :
    (a :: l).getLast? = l.getLast? := by
  cases l with
  | nil => exact absurd rfl h
  | cons b t => exact List.getLast?_cons_cons

theorem getLast?_append_of_ne_nil (l1 l2 : List Event) (h : l2 ≠ []) :
    (l1 ++ l2).getLast? = l2.getLast? := by
  induction l1 with
  | nil => rfl
  | cons a t ih =>
    have ht : t ++ l2 ≠ [] := by
      intro hc
      rcases List.append_eq_nil.mp hc with ⟨-, h2⟩
      exact h h2
    rw [List.cons_append, getLast?_cons_of_ne_nil a (t ++ l2) ht, ih]

theorem mem_dictInsert {d : List ToolInfo} {t x : ToolInfo} (h : x ∈ dictInsert d t) :
    x ∈ d ∨ x = t := by
  unfold dictInsert at h
  by_cases hc : d.any (fun y => y.name == t.name)
  · rw [if_pos hc] at h
    rcases List.mem_map.mp h with ⟨y, hy, hxy⟩
    by_cases hn : y.name == t.name
    · right; rw [← hxy, if_pos hn]
    · left; rw [← hxy, if_neg hn]; exact hy
  · rw [if_neg hc] at h
    rcases List.mem_append.mp h with h1 | h1
    · exact Or.inl h1
    · exact Or.inr (List.mem_singleton.mp h1)

theorem mem_foldl_dictInsert {x : ToolInfo} :
    ∀ (ts acc : List ToolInfo), x ∈ ts.foldl dictInsert acc → x ∈ acc ∨ x ∈ ts := by
  intro ts
  induction ts with
  | nil => intro acc h; exact Or.inl h
  | cons t rest ih =>
    intro acc h
    rcases ih (dictInsert acc t) h with h1 | h1
    · rcases mem_dictInsert h1 with h2 | h2
      · exact Or.inl h2
      · exact Or.inr (h2 ▸ List.mem_cons_self t rest)
    · exact Or.inr (List.mem_cons_of_mem t h1)

theorem mem_buildToolsDict {ts : List ToolInfo} {x : ToolInfo}
    (h : x ∈ buildToolsDict ts) : x ∈ ts := by
  rcases mem_foldl_dictInsert ts [] h with h1 | h1
  · cases h1
  · exact h1

theorem handle_tool_call_ok_shape (env : Env) (a : ToolCallingAgent) (tool_call : Msg)
    (messages msgs2 : List Msg) (ev : Event)
    (h : handle_tool_call env a tool_call messages = Except.ok (msgs2, ev)) :
    ∃ out : Msg, ev = Event.outputItemDone out ∧ out.type = some "function_call_output"
      ∧ out.call_id = tool_call.call_id ∧ msgs2 = messages ++ [out] := by
  unfold handle_tool_call at h
  split at h
  · exact Except.noConfusion h
  · split at h
    · exact Except.noConfusion h
    · dsimp only at h
      injection h with h1
      injection h1 with h2 h3
      exact ⟨_, h3.symm, rfl, rfl, h2.symm⟩

theorem handle_tool_call_ok_event_ne_mx (env : Env) (a : ToolCallingAgent) (tool_call : Msg)
    (messages msgs2 : List Msg) (ev : Event)
    (h : handle_tool_call env a tool_call messages = Except.ok (msgs2, ev)) :
    ev ≠ mxEvent env := by
  rcases handle_tool_call_ok_shape env a tool_call messages msgs2 ev h with
    ⟨out, hev, hty, -, -⟩
  intro hc
  rw [hev] at hc
  unfold mxEvent at hc
  injection hc with hitem
  rw [hitem] at hty
  simp [mxItem, create_text_output_item] at hty

theorem runLoop_budget (env : Env) (a : ToolCallingAgent)
    (hfresh : ∀ k ms app evs2, env.model k ms = Except.ok (app, evs2) → mxEvent env ∉ evs2) :
    ∀ (n : Nat) (msgs : List Msg) (evs : List Event) (mc tc : Nat),
      (runLoop env a n msgs evs mc tc).modelTurns + (runLoop env a n msgs evs mc tc).toolTurns
          ≤ mc + tc + n
      ∧ ∃ tailEvs : List Event,
          (runLoop env a n msgs evs mc tc).events = evs ++ tailEvs
          ∧ (if (runLoop env a n msgs evs mc tc).error = none
                ∧ (runLoop env a n msgs evs mc tc).returnedDone = false
             then countEvent (mxEvent env) tailEvs = 1 ∧ tailEvs.getLast? = some (mxEvent env)
             else countEvent (mxEvent env) tailEvs = 0) := by
  intro n
  induction n with
  | zero =>
    intro msgs evs mc tc
    refine ⟨by simp [runLoop], [mxEvent env], rfl, ?_⟩
    simp [runLoop, countEvent, List.countP_cons]
  | succ n ih =>
    intro msgs evs mc tc
    cases hl : msgs.getLast? with
    | none =>
      have hr : runLoop env a (n + 1) msgs evs mc tc =
          { events := evs, messages := msgs, modelTurns := mc, toolTurns := tc,
            returnedDone := false, error := some PyErr.indexError } := by
        simp [runLoop, hl]
      rw [hr]
      refine ⟨by dsimp only; omega, [], by simp, ?_⟩
      rw [if_neg (by simp)]
      rfl
    | some last_msg =>
      by_cases hrole : last_msg.role = some "assistant"
      · have hr : runLoop env a (n + 1) msgs evs mc tc =
            { events := evs, messages := msgs, modelTurns := mc, toolTurns := tc,
              returnedDone := true, error := none } := by
          simp [runLoop, hl, hrole]
        rw [hr]
        refine ⟨by dsimp only; omega, [], by simp, ?_⟩
        rw [if_neg (by simp)]
        rfl
      · by_cases hty : last_msg.type = some "function_call"
        · cases heq : handle_tool_call env a last_msg msgs with
          | error e =>
            have hr : runLoop env a (n + 1) msgs evs mc tc =
                { events := evs, messages := msgs, modelTurns := mc, toolTurns := tc + 1,
                  returnedDone := false, error := some e } := by
              simp [runLoop, hl, hrole, hty, heq]
            rw [hr]
            refine ⟨by dsimp only; omega, [], by simp, ?_⟩
            rw [if_neg (by simp)]
            rfl
          | ok pr =>
            obtain ⟨msgs2, ev⟩ := pr
            have hr : runLoop env a (n + 1) msgs evs mc tc =
                runLoop env a n msgs2 (evs ++ [ev]) mc (tc + 1) := by
              simp [runLoop, hl, hrole, hty, heq]
            rw [hr]
            obtain ⟨hb, tail2, hev, hif⟩ := ih msgs2 (evs ++ [ev]) mc (tc + 1)
            have hne : ev ≠ mxEvent env :=
              handle_tool_call_ok_event_ne_mx env a _ msgs msgs2 ev heq
            refine ⟨by omega, ev :: tail2, ?_, ?_⟩
            · rw [hev, List.append_assoc, List.singleton_append]
            · by_cases hc : (runLoop env a n msgs2 (evs ++ [ev]) mc (tc + 1)).error = none
                ∧ (runLoop env a n msgs2 (evs ++ [ev]) mc (tc + 1)).returnedDone = false
              · rw [if_pos hc] at hif ⊢
                have ht2 : tail2 ≠ [] := by
                  intro hnil
                  rw [hnil] at hif
                  exact Option.noConfusion hif.2
                refine ⟨?_, ?_⟩
                · rw [countEvent_cons_ne _ _ _ hne]; exact hif.1
                · rw [getLast?_cons_of_ne_nil _ _ ht2]; exact hif.2
              · rw [if_neg hc] at hif ⊢
                rw [countEvent_cons_ne _ _ _ hne]; exact hif
        · cases heq : env.model mc msgs with
          | error e =>
            have hr : runLoop env a (n + 1) msgs evs mc tc =
                { events := evs, messages := msgs, modelTurns := mc + 1, toolTurns := tc,
                  returnedDone := false, error := some e } := by
              simp [runLoop, hl, hrole, hty, heq]
            rw [hr]
            refine ⟨by dsimp only; omega, [], by simp, ?_⟩
            rw [if_neg (by simp)]
            rfl
          | ok pr =>
            obtain ⟨appended, mevs⟩ := pr
            have hr : runLoop env a (n + 1) msgs evs mc tc =
                runLoop env a n (msgs ++ appended) (evs ++ mevs) (mc + 1) tc := by
              simp [runLoop, hl, hrole, hty, heq]
            rw [hr]
            obtain ⟨hb, tail2, hev, hif⟩ := ih (msgs ++ appended) (evs ++ mevs) (mc + 1) tc
            have hzero : countEvent (mxEvent env) mevs = 0 :=
              countEvent_eq_zero _ _ (hfresh mc msgs appended mevs heq)
            refine ⟨by omega, mevs ++ tail2, ?_, ?_⟩
            · rw [hev, List.append_assoc]
            · by_cases hc : (runLoop env a n (msgs ++ appended) (evs ++ mevs) (mc + 1) tc).error = none
                ∧ (runLoop env a n (msgs ++ appended) (evs ++ mevs) (mc + 1) tc).returnedDone = false
              · rw [if_pos hc] at hif ⊢
                have ht2 : tail2 ≠ [] := by
                  intro hnil
                  rw [hnil] at hif
                  exact Option.noConfusion hif.2
                refine ⟨?_, ?_⟩
                · rw [countEvent_append, hzero, hif.1]
                · rw [getLast?_append_of_ne_nil _ _ ht2]; exact hif.2
              · rw [if_neg hc] at hif ⊢
                rw [countEvent_append, hzero, hif]

/-- C3: for every initial conversation and every model behaviour, the loop
performs at most `max_iter` transitions (model turns plus tool turns); the
synthetic "Max iterations reached. Stopping." item-completed event occurs
exactly once — and is the final event — exactly when the run neither hit the
early DONE `return` nor died on an exception, i.e. when the budget was
exhausted without a state inspection observing a finalized assistant tail;
otherwise it never occurs.  The freshness hypothesis says the model oracle
never emits an event equal to the synthetic one (it carries a fresh
`uuid4`). -/
theorem max_turns_budget (env : Env) (a : ToolCallingAgent) (msgs : List Msg) (n : Nat)
    (hfresh : ∀ k ms app evs2, env.model k ms = Except.ok (app, evs2) → mxEvent env ∉ evs2) :
    (call_and_run_tools env a msgs n).modelTurns + (call_and_run_tools env a msgs n).toolTurns ≤ n
    ∧ (if (call_and_run_tools env a msgs n).error = none
          ∧ (call_and_run_tools env a msgs n).returnedDone = false
       then countEvent (mxEvent env) (call_and_run_tools env a msgs n).events = 1
            ∧ (call_and_run_tools env a msgs n).events.getLast? = some (mxEvent env)
       else countEvent (mxEvent env) (call_and_run_tools env a msgs n).events = 0) := by
  obtain ⟨hb, tail2, hev, hif⟩ := runLoop_budget env a hfresh n msgs [] 0 0
  unfold call_and_run_tools
  have hev2 : (runLoop env a n msgs [] 0 0).events = tail2 := by simpa using hev
  constructor
  · simpa using hb
  · rw [hev2]
    exact hif

/-- Witness for `max_turns_budget` at a concrete environment whose model
turn raises: the run makes one model turn, stops with that error, and emits
no synthetic notice. -/
theorem max_turns_budget_witness :
    (∀ k ms app evs2, envNoParse.model k ms = Except.ok (app, evs2) → mxEvent envNoParse ∉ evs2)
    ∧ ((call_and_run_tools envNoParse aEmpty [userMsg] 5).modelTurns
          + (call_and_run_tools envNoParse aEmpty [userMsg] 5).toolTurns ≤ 5
      ∧ (if (call_and_run_tools envNoParse aEmpty [userMsg] 5).error = none
            ∧ (call_and_run_tools envNoParse aEmpty [userMsg] 5).returnedDone = false
         then countEvent (mxEvent envNoParse)
                (call_and_run_tools envNoParse aEmpty [userMsg] 5).events = 1
              ∧ (call_and_run_tools envNoParse aEmpty [userMsg] 5).events.getLast?
                  = some (mxEvent envNoParse)
         else countEvent (mxEvent envNoParse)
                (call_and_run_tools envNoParse aEmpty [userMsg] 5).events = 0)) :=
  ⟨fun _ _ _ _ h => Except.noConfusion h,
   max_turns_budget envNoParse aEmpty [userMsg] 5 (fun _ _ _ _ h => Except.noConfusion h)⟩

/-- C10: with an iteration budget of zero the `for` range is empty, so for
every input conversation — in particular one already ending in a finalized
assistant message — the loop emits exactly the synthetic "Max iterations
reached. Stopping." event, touches neither the model nor any tool, and
leaves the conversation unchanged. -/
theorem max_iter_zero_always_notice (env : Env) (a : ToolCallingAgent) (msgs : List Msg) :
    call_and_run_tools env a msgs 0 =
      { events := [Event.outputItemDone (create_text_output_item
            "Max iterations reached. Stopping." env.uuidStr)],
        messages := msgs, modelTurns := 0, toolTurns := 0,
        returnedDone := false, error := none } := rfl

/-- C5: if the initial conversation ends in a finalized assistant message
and the budget is positive, the run terminates on the first inspection with
zero events, zero model calls and zero tool executions. -/
theorem done_immediately (env : Env) (a : ToolCallingAgent) (msgs : List Msg) (m : Msg)
    (n : Nat) (hn : 1 ≤ n) (hlast : msgs.getLast? = some m)
    (hrole : m.role = some "assistant") :
    call_and_run_tools env a msgs n =
      { events := [], messages := msgs, modelTurns := 0, toolTurns := 0,
        returnedDone := true, error := none } := by
  obtain ⟨k, rfl⟩ : ∃ k, n = k + 1 := ⟨n - 1, by omega⟩
  unfold call_and_run_tools
  simp [runLoop, hlast, hrole]

/-- Witness for `done_immediately` on a concrete two-message conversation
ending in an assistant message, with the default budget 10. -/
theorem done_immediately_witness :
    (1 ≤ 10) ∧ ([userMsg, asstMsg].getLast? = some asstMsg)
    ∧ (asstMsg.role = some "assistant")
    ∧ call_and_run_tools envParseOk aEmpty [userMsg, asstMsg] 10 =
        { events := [], messages := [userMsg, asstMsg], modelTurns := 0, toolTurns := 0,
          returnedDone := true, error := none } :=
  ⟨by omega, rfl, rfl,
   done_immediately envParseOk aEmpty [userMsg, asstMsg] asstMsg 10 (by omega) rfl rfl⟩

/-- C8: the registry's specs operation is idempotent — repeated calls return
the same ordered spec list, and no call touches the external tool catalog
(the query counter of the tracked embedding is unchanged). -/
theorem get_tool_specs_idempotent (a : ToolCallingAgent) (w : CatalogWorld) :
    (get_tool_specs_tracked a ((get_tool_specs_tracked a w).2)).1
        = (get_tool_specs_tracked a w).1
    ∧ (get_tool_specs_tracked a w).2 = w :=
  ⟨rfl, rfl⟩

/-- C7: every tool spec admitted through `create_tool_info` reaches the
advertised list of `get_tool_specs` with the transport-only `"strict"` flag
removed, whatever its original value was. -/
theorem strict_flag_stripped (ucExecute : String → Args → FunctionResult) (ep : String)
    (raw : List (ToolSpec × Option (Args → String))) (s : ToolSpec)
    (hs : s ∈ get_tool_specs (mkToolCallingAgent ep
        (raw.map (fun p => create_tool_info ucExecute p.1 p.2)))) :
    s.function.strict = none := by
  simp only [get_tool_specs, mkToolCallingAgent, List.mem_map] at hs
  obtain ⟨ti, hti, rfl⟩ := hs
  have h2 := mem_buildToolsDict hti
  rcases List.mem_map.mp h2 with ⟨p, hp, rfl⟩
  simp [create_tool_info]

/-- A raw catalog spec still carrying `"strict": true`. -/
def rawStrictSpec : ToolSpec :=
  { type := "function",
    function := { name := "system__ai__python_exec", strict := some true, rest := "schema" } }

/-- A stub Unity Catalog execution client. -/
def ucStub : String → Args → FunctionResult := fun _ _ => { error := none, value := "" }

/-- The spec above as it is advertised, with the `"strict"` key gone. -/
def strippedSpec : ToolSpec :=
  { type := "function",
    function := { name := "system__ai__python_exec", strict := none, rest := "schema" } }

/-- Witness for `strict_flag_stripped` on a concrete one-tool registry. -/
theorem strict_flag_stripped_witness :
    (strippedSpec ∈ get_tool_specs (mkToolCallingAgent "ep"
        ([(rawStrictSpec, (none : Option (Args → String)))].map
          (fun p => create_tool_info ucStub p.1 p.2))))
    ∧ strippedSpec.function.strict = none :=
  ⟨by decide,
   strict_flag_stripped ucStub "ep" [(rawStrictSpec, none)] strippedSpec (by decide)⟩

/-- C9: whenever `predict` returns a response at all, its `custom_outputs`
is exactly the request's `custom_inputs`, independent of what the loop
produced. -/
theorem custom_inputs_echoed {α : Type} (env : Env) (a : ToolCallingAgent) (req : Request α)
    (resp : Response α) (h : predict env a req = Except.ok resp) :
    resp.custom_outputs = req.custom_inputs := by
  simp only [predict] at h
  split at h
  · exact Except.noConfusion h
  · injection h with h1
    rw [← h1]

/-- A concrete request carrying passthrough metadata. -/
def req9 : Request String :=
  { input := [asstMsg], custom_inputs := some "trace-42" }

/-- The response `predict` produces for `req9`. -/
def resp9 : Response String :=
  { output := [], custom_outputs := some "trace-42" }

/-- Witness for `custom_inputs_echoed` on a concrete request. -/
theorem custom_inputs_echoed_witness :
    (predict envParseOk aEmpty req9 = Except.ok resp9)
    ∧ resp9.custom_outputs = req9.custom_inputs :=
  ⟨rfl, custom_inputs_echoed envParseOk aEmpty req9 resp9 rfl⟩

/-- An endpoint that is rate-limited on the first attempt and would succeed
on a retry. -/
def llmEnvRateLimited : LLMEnv :=
  { endpoint := fun attempt _ _ =>
      if attempt = 0 then Except.error (PyErr.endpointError "rate limited")
      else Except.ok [{ choices := ["c"], payload := "answer" }] }

/-- C6 (code-bug evidence): `call_llm` performs exactly one endpoint
attempt and propagates a first-attempt transient error immediately, even
though the very next attempt would have succeeded — the source imports
`backoff` (agent.py line 11) but never applies it, so no retry exists. -/
theorem call_llm_no_retry :
    call_llm llmEnvRateLimited aEmpty [userMsg]
        = Except.error (PyErr.endpointError "rate limited")
    ∧ llmEnvRateLimited.endpoint 1 [userMsg] (get_tool_specs aEmpty)
        = Except.ok [{ choices := ["c"], payload := "answer" }] :=
  ⟨rfl, rfl⟩

/-- C1 (counterexample to the claim as stated): with an empty registry and
a pending invocation of the unknown tool `"ghost"`, the run does not append
a tool-result and does not continue — it terminates exceptionally with the
`KeyError` escaping `execute_tool`, the conversation unchanged and no event
emitted. -/
theorem unknown_tool_counterexample :
    (call_and_run_tools envParseOk aEmpty [fcGhost] 10).error
        = some (PyErr.keyError "ghost")
    ∧ (call_and_run_tools envParseOk aEmpty [fcGhost] 10).messages = [fcGhost]
    ∧ (call_and_run_tools envParseOk aEmpty [fcGhost] 10).events = [] :=
  ⟨rfl, rfl, rfl⟩

/-- C1 (amended): when the tail message is a tool invocation whose name is
absent from the registry (and its arguments parse), the tool turn raises
the lookup `KeyError` past the execute boundary: the loop terminates
exceptionally, appends no tool-result message and emits no further event. -/
theorem unknown_tool_raises (env : Env) (a : ToolCallingAgent) (msgs : List Msg) (fc : Msg)
    (args : Args) (n : Nat) (evs : List Event) (mc tc : Nat)
    (hlast : msgs.getLast? = some fc) (hrole : fc.role ≠ some "assistant")
    (hty : fc.type = some "function_call") (hargs : env.jsonLoads fc.arguments = some args)
    (htool : dictLookup a.tools_dict fc.name = none) :
    runLoop env a (n + 1) msgs evs mc tc =
      { events := evs, messages := msgs, modelTurns := mc, toolTurns := tc + 1,
        returnedDone := false, error := some (PyErr.keyError fc.name) } := by
  simp [runLoop, hlast, hrole, hty, handle_tool_call, hargs, execute_tool, htool]

/-- Witness for `unknown_tool_raises` at the concrete `"ghost"` call. -/
theorem unknown_tool_raises_witness :
    ([fcGhost].getLast? = some fcGhost)
    ∧ (fcGhost.role ≠ some "assistant")
    ∧ (fcGhost.type = some "function_call")
    ∧ (envParseOk.jsonLoads fcGhost.arguments = some [])
    ∧ (dictLookup aEmpty.tools_dict fcGhost.name = none)
    ∧ runLoop envParseOk aEmpty (0 + 1) [fcGhost] [] 0 0 =
        { events := [], messages := [fcGhost], modelTurns := 0, toolTurns := 0 + 1,
          returnedDone := false, error := some (PyErr.keyError fcGhost.name) } :=
  ⟨rfl, by decide, rfl, rfl, rfl,
   unknown_tool_raises envParseOk aEmpty [fcGhost] fcGhost [] 0 [] 0 0 rfl (by decide)
     rfl rfl rfl⟩

/-- C2 (counterexample to the claim as stated): with a pending invocation
whose serialized arguments do not parse, the run appends no tool-result and
raises the decode error to the caller, terminating the invocation. -/
theorem malformed_args_counterexample :
    (call_and_run_tools envNoParse aEmpty [fcBad] 10).error
        = some (PyErr.jsonDecodeError "not json")
    ∧ (call_and_run_tools envNoParse aEmpty [fcBad] 10).messages = [fcBad]
    ∧ (call_and_run_tools envNoParse aEmpty [fcBad] 10).events = [] :=
  ⟨rfl, rfl, rfl⟩

/-- C2 (amended): when the tail message is a tool invocation whose
serialized arguments are not parseable, the tool turn raises the decode
error out of `handle_tool_call`: the loop terminates exceptionally, appends
no tool-result message and emits no further event. -/
theorem malformed_args_raises (env : Env) (a : ToolCallingAgent) (msgs : List Msg) (fc : Msg)
    (n : Nat) (evs : List Event) (mc tc : Nat)
    (hlast : msgs.getLast? = some fc) (hrole : fc.role ≠ some "assistant")
    (hty : fc.type = some "function_call") (hargs : env.jsonLoads fc.arguments = none) :
    runLoop env a (n + 1) msgs evs mc tc =
      { events := evs, messages := msgs, modelTurns := mc, toolTurns := tc + 1,
        returnedDone := false, error := some (PyErr.jsonDecodeError fc.arguments) } := by
  simp [runLoop, hlast, hrole, hty, handle_tool_call, hargs]

/-- Witness for `malformed_args_raises` at the concrete unparsable call. -/
theorem malformed_args_raises_witness :
    ([fcBad].getLast? = some fcBad)
    ∧ (fcBad.role ≠ some "assistant")
    ∧ (fcBad.type = some "function_call")
    ∧ (envNoParse.jsonLoads fcBad.arguments = none)
    ∧ runLoop envNoParse aEmpty (0 + 1) [fcBad] [] 0 0 =
        { events := [], messages := [fcBad], modelTurns := 0, toolTurns := 0 + 1,
          returnedDone := false, error := some (PyErr.jsonDecodeError fcBad.arguments) } :=
  ⟨rfl, by decide, rfl, rfl,
   malformed_args_raises envNoParse aEmpty [fcBad] fcBad 0 [] 0 0 rfl (by decide) rfl rfl⟩

/-- C4 (counterexample to the claim as stated): with budget 1, a model turn
that appends a tool invocation with `call_id = "X"` exhausts the budget;
the run terminates normally with the invocation still pending — no
tool-result message (of any `call_id`) is ever appended. -/
theorem tool_roundtrip_counterexample :
    (call_and_run_tools envModelFc aEmpty [userMsg] 1).error = none
    ∧ fcX ∈ (call_and_run_tools envModelFc aEmpty [userMsg] 1).messages
    ∧ (call_and_run_tools envModelFc aEmpty [userMsg] 1).messages.countP
        (fun m => decide (m.type = some "function_call_output")) = 0 := by
  refine ⟨rfl, ?_, rfl⟩
  decide

/-- C4 (amended): a tool invocation that is the tail message when the loop
performs a transition (within budget, with parseable arguments and a
registered name) receives, in that very transition and before any further
model turn, exactly one tool-result message carrying the same `call_id`;
invocations left pending at budget exhaustion, or not at the tail, receive
none. -/
theorem tool_call_roundtrip (env : Env) (a : ToolCallingAgent) (msgs : List Msg) (fc : Msg)
    (args : Args) (ti : ToolInfo) (n : Nat) (evs : List Event) (mc tc : Nat)
    (hlast : msgs.getLast? = some fc) (hrole : fc.role ≠ some "assistant")
    (hty : fc.type = some "function_call") (hargs : env.jsonLoads fc.arguments = some args)
    (htool : dictLookup a.tools_dict fc.name = some ti) :
    ∃ out : Msg, out.call_id = fc.call_id ∧ out.type = some "function_call_output"
      ∧ runLoop env a (n + 1) msgs evs mc tc =
          runLoop env a n (msgs ++ [out]) (evs ++ [Event.outputItemDone out]) mc (tc + 1) := by
  refine ⟨create_function_call_output_item fc.call_id (ti.exec_fn args), rfl, rfl, ?_⟩
  simp [runLoop, hlast, hrole, hty, handle_tool_call, hargs, execute_tool, htool,
    create_function_call_output_item]

/-- Witness for `tool_call_roundtrip` on the registered code-execution
tool. -/
theorem tool_call_roundtrip_witness :
    ([userMsg, fcX].getLast? = some fcX)
    ∧ (fcX.role ≠ some "assistant")
    ∧ (fcX.type = some "function_call")
    ∧ (envParseOk.jsonLoads fcX.arguments = some [])
    ∧ (dictLookup aEcho.tools_dict fcX.name = some echoTool)
    ∧ (∃ out : Msg, out.call_id = fcX.call_id ∧ out.type = some "function_call_output"
        ∧ runLoop envParseOk aEcho (0 + 1) [userMsg, fcX] [] 0 0 =
            runLoop envParseOk aEcho 0 ([userMsg, fcX] ++ [out])
              ([] ++ [Event.outputItemDone out]) 0 (0 + 1)) :=
  ⟨rfl, by decide, rfl, rfl, rfl,
   tool_call_roundtrip envParseOk aEcho [userMsg, fcX] fcX [] echoTool 0 [] 0 0 rfl
     (by decide) rfl rfl rfl⟩
